import Mathlib

/-!
Verification of the watermark-restoration engine of this repository.

The repository contains two parallel implementations of the restoration
algorithm:

* `WatermarkEngine` (`watermark-engine.js` part): `process(canvas, forceSize,
  intensity)` bails out of the whole transform when the computed ROI origin is
  negative, throws when the engine is not initialized, and stores restored
  channel values through a `Uint8ClampedArray` (which rounds to the nearest
  integer, ties to even).
* `WatermarkProcessor`: `process(imageData, forceMode, logoValue)` performs a
  per-pixel bounds check, explicitly rounds with `Math.round`, and silently
  returns the image unchanged when the alpha maps have not been loaded.

Both are embedded below.  Images and alpha maps carry their pixel data as a
total function `ℕ → ℚ` over flat `RGBA` indices, mirroring the JavaScript
typed arrays (reads of a `Uint8ClampedArray` yield ordinary numbers, and all
arithmetic is done on numbers; we model those numbers with `ℚ`).  In-place
mutation of the pixel buffer is modelled by `Function.update`, and the
`for`-loops by `List.foldl` over `List.range`.
-/

/-- `const MAX_ALPHA = 0.99` — avoid division by near-zero. -/
def MAX_ALPHA : ℚ := 99 / 100

/-- `const ALPHA_THRESHOLD = 0.002` — ignore very small alpha (noise). -/
def ALPHA_THRESHOLD : ℚ := 2 / 1000

/-- JavaScript `Math.round`: round half up, i.e. `⌊x + 1/2⌋`. -/
def jsRound (x : ℚ) : ℤ := ⌊x + 1 / 2⌋

/-- Rounding performed by a store into a `Uint8ClampedArray`: round to the
nearest integer, ties to even (the value is clamped to `[0,255]` beforehand
by the `Math.max`/`Math.min` in the source). -/
def roundTiesToEven (x : ℚ) : ℤ :=
  if x - ⌊x⌋ < 1 / 2 then ⌊x⌋
  else if 1 / 2 < x - ⌊x⌋ then ⌊x⌋ + 1
  else if ⌊x⌋ % 2 = 0 then ⌊x⌋ else ⌊x⌋ + 1

/-- An alpha map: per-pixel opacity of the reference watermark capture,
as produced by `calculateAlphaMap` / `loadAlphaMap` (a `Float32Array` of
length `width*height` together with the bitmap dimensions). -/
structure AlphaMap where
  width : ℕ
  height : ℕ
  data : ℕ → ℚ

/-- A target image: an `ImageData`-like RGBA pixel buffer.  `data j` is the
channel value at flat index `j`, where the pixel `(x,y)` occupies indices
`(y*width+x)*4 + c` for channels `c = 0,1,2,3` (R,G,B,A). -/
structure ImageData where
  width : ℕ
  height : ℕ
  data : ℕ → ℚ

/-- `WATERMARK_SIZE = { SMALL: 'small', LARGE: 'large' }`. -/
inductive WatermarkSize
  | small
  | large
deriving DecidableEq

/-- The `forceMode` argument of `WatermarkProcessor.getWatermarkConfig`:
one of `'auto'`, `'48'`, `'96'`. -/
inductive ForceMode
  | auto
  | force48
  | force96
deriving DecidableEq

/-- Configuration object returned by `WatermarkEngine.getWatermarkConfig*`. -/
structure WMConfig where
  margin_right : ℕ
  margin_bottom : ℕ
  logo_size : ℕ
  size : ℕ
deriving DecidableEq

/-- Configuration object returned by `WatermarkProcessor.getWatermarkConfig`:
`x`/`y` are the ROI origin and may be negative for undersized images. -/
structure PConfig where
  size : ℕ
  margin : ℕ
  x : ℤ
  y : ℤ
deriving DecidableEq

/-- State of a `WatermarkEngine` instance: the `ready` flag set by `init`,
the two alpha maps, and `logoValue` (255.0 in the constructor). -/
structure WatermarkEngineState where
  ready : Bool
  small : AlphaMap
  large : AlphaMap
  logoValue : ℚ

/-- The three-channel inner loop shared by both implementations: for
`c = 0,1,2` the channel at `pixelIndex + c` is replaced by `store` applied to
its current value (an in-place read-modify-write of one typed-array slot). -/
def chanLoop3 (store : ℚ → ℚ) (pixelIndex : ℕ) (d : ℕ → ℚ) : ℕ → ℚ :=
  (List.range 3).foldl
    (fun e c => Function.update e (pixelIndex + c) (store (e (pixelIndex + c)))) d

/-- `WatermarkProcessor` per-channel restoration:
`original = (watermarked - safeAlpha * logoValue) / oneMinusAlpha;`
`data[...] = Math.max(0, Math.min(255, Math.round(original)))`. -/
def restoreChannelQ (safeAlpha logoValue w : ℚ) : ℚ :=
  ((max 0 (min 255 (jsRound ((w - safeAlpha * logoValue) / (1 - safeAlpha)))) : ℤ) : ℚ)

namespace WatermarkEngine

/-- `getWatermarkConfigLarge()`. -/
def getWatermarkConfigLarge : WMConfig :=
  { margin_right := 64, margin_bottom := 64, logo_size := 96, size := 96 }

/-- `getWatermarkConfigSmall()`. -/
def getWatermarkConfigSmall : WMConfig :=
  { margin_right := 32, margin_bottom := 32, logo_size := 48, size := 48 }

/-- `getWatermarkConfig(width, height)`: large (96x96, 64px margin) iff
BOTH `width > 1024` AND `height > 1024`. -/
def getWatermarkConfig (width height : ℕ) : WMConfig :=
  if 1024 < width ∧ 1024 < height then getWatermarkConfigLarge
  else getWatermarkConfigSmall

/-- Config selection at the top of `WatermarkEngine.process`:
`forceSize` truthy selects large iff it equals `WATERMARK_SIZE.LARGE`,
otherwise small; `null` falls back to the automatic rule. -/
def selectConfig (forceSize : Option WatermarkSize) (width height : ℕ) : WMConfig :=
  match forceSize with
  | some fs =>
      if fs = WatermarkSize.large then getWatermarkConfigLarge
      else getWatermarkConfigSmall
  | none => getWatermarkConfig width height

/-- `const alphaMap = config.size === 96 ? this.alphaMaps.large : this.alphaMaps.small`. -/
def selectMap (st : WatermarkEngineState) (config : WMConfig) : AlphaMap :=
  if config.size = 96 then st.large else st.small

/-- `const roiX = width - config.margin_right - config.logo_size`. -/
def roiX (config : WMConfig) (width : ℕ) : ℤ :=
  (width : ℤ) - config.margin_right - config.logo_size

/-- `const roiY = height - config.margin_bottom - config.logo_size`. -/
def roiY (config : WMConfig) (height : ℕ) : ℤ :=
  (height : ℤ) - config.margin_bottom - config.logo_size

/-- `ctx.getImageData(roiX, roiY, size, size)`: the extracted `size×size`
RGBA sub-buffer; entry `(r*size+c)*4 + ch` of the extraction is the channel
`ch` of image pixel `(rx+c, ry+r)`.  The call site guarantees the rectangle
lies inside the canvas. -/
def extractROI (d : ℕ → ℚ) (width rx ry size : ℕ) : ℕ → ℚ :=
  fun k =>
    let p := k / 4
    let ch := k % 4
    let r := p / size
    let c := p % size
    d (((ry + r) * width + (rx + c)) * 4 + ch)

/-- `ctx.putImageData(imageData, roiX, roiY)`: write the `size×size` RGBA
block back at `(rx, ry)`; pixels of the canvas outside the block keep their
previous value. -/
def putBackROI (orig final : ℕ → ℚ) (width height rx ry size : ℕ) : ℕ → ℚ :=
  fun j =>
    let p := j / 4
    let ch := j % 4
    let x := p % width
    let y := p / width
    if rx ≤ x ∧ x < rx + size ∧ ry ≤ y ∧ y < ry + size ∧ y < height then
      final (((y - ry) * size + (x - rx)) * 4 + ch)
    else orig j

/-- `const rawAlpha = alphaMap.data[i] * intensity;`
`const alpha = Math.min(rawAlpha, MAX_ALPHA);` — the effective alpha
substituted into the inverse-blend formula. -/
def effectiveAlpha (entry intensity : ℚ) : ℚ :=
  min (entry * intensity) MAX_ALPHA

/-- `WatermarkEngine` per-channel store: the clamped quotient is assigned to
a `Uint8ClampedArray` slot, which rounds ties-to-even on store. -/
def engineStoreChannel (alphaM oneMinusAlpha w : ℚ) : ℚ :=
  ((roundTiesToEven (max 0 (min 255 ((w - alphaM) / oneMinusAlpha))) : ℤ) : ℚ)

/-- One iteration of the `for (let i = 0; i < alphaMap.data.length; i++)` loop
in `WatermarkEngine.process`, acting on the extracted ROI buffer. -/
def engineStep (alphaData : ℕ → ℚ) (logoValue intensity : ℚ) (i : ℕ)
    (d : ℕ → ℚ) : ℕ → ℚ :=
  let alpha := effectiveAlpha (alphaData i) intensity
  if alpha < ALPHA_THRESHOLD then d
  else
    let alphaM := alpha * logoValue
    let oneMinusAlpha := 1 - alpha
    let idx := i * 4
    chanLoop3 (engineStoreChannel alphaM oneMinusAlpha) idx d

/-- The full reverse-alpha-blending loop of `WatermarkEngine.process`,
iterating `i` over the length of the alpha map data. -/
def engineLoop (alphaData : ℕ → ℚ) (len : ℕ) (logoValue intensity : ℚ)
    (d : ℕ → ℚ) : ℕ → ℚ :=
  (List.range len).foldl (fun e i => engineStep alphaData logoValue intensity i e) d

/-- `WatermarkEngine.process(canvas, forceSize, intensity)`.  Throws (here:
`Except.error`) when the engine is not initialized; returns with the canvas
unchanged when the ROI origin is negative; otherwise extracts the ROI,
applies the reverse blend, and writes the block back. -/
def process (st : WatermarkEngineState) (canvas : ImageData)
    (forceSize : Option WatermarkSize) (intensity : ℚ) : Except String ImageData :=
  if st.ready = false then Except.error "Watermark engine not initialized"
  else
    let width := canvas.width
    let height := canvas.height
    let config := selectConfig forceSize width height
    let alphaMap := selectMap st config
    let rx : ℤ := roiX config width
    let ry : ℤ := roiY config height
    if rx < 0 ∨ ry < 0 then Except.ok canvas
    else
      let extracted := extractROI canvas.data width rx.toNat ry.toNat config.logo_size
      let extFinal := engineLoop alphaMap.data (alphaMap.width * alphaMap.height)
        st.logoValue intensity extracted
      Except.ok { canvas with
        data := putBackROI canvas.data extFinal width height rx.toNat ry.toNat
          config.logo_size }

/-- The image observed by the caller after `process`: the mutated canvas on
success, the untouched canvas if the call threw. -/
def runProcess (st : WatermarkEngineState) (canvas : ImageData)
    (forceSize : Option WatermarkSize) (intensity : ℚ) : ImageData :=
  ((process st canvas forceSize intensity).toOption).getD canvas

end WatermarkEngine

namespace WatermarkProcessor

/-- `WatermarkProcessor.getWatermarkConfig(width, height, forceMode)`. -/
def getWatermarkConfig (width height : ℕ) (forceMode : ForceMode) : PConfig :=
  let size : ℕ :=
    if forceMode = ForceMode.force48 then 48
    else if forceMode = ForceMode.force96 then 96
    else if 1024 < width ∧ 1024 < height then 96 else 48
  let margin : ℕ := if size = 96 then 64 else 32
  { size := size, margin := margin,
    x := (width : ℤ) - margin - size,
    y := (height : ℤ) - margin - size }

/-- `const alphaMap = config.size === 96 ? this.alphaMap96 : this.alphaMap48`. -/
def selectMap (alphaMap48 alphaMap96 : Option AlphaMap) (config : PConfig) :
    Option AlphaMap :=
  if config.size = 96 then alphaMap96 else alphaMap48

/-- One iteration of the `(row, col)` double loop of
`WatermarkProcessor.process`: per-pixel bounds check, threshold skip, alpha
clamp, then the three-channel inverse blend at `pixelIndex`. -/
def pixelStep (am : ℕ → ℚ) (size : ℕ) (cx cy : ℤ) (width height : ℕ)
    (logoValue : ℚ) (row col : ℕ) (d : ℕ → ℚ) : ℕ → ℚ :=
  let imgX : ℤ := cx + col
  let imgY : ℤ := cy + row
  if imgX < 0 ∨ (width : ℤ) ≤ imgX ∨ imgY < 0 ∨ (height : ℤ) ≤ imgY then d
  else
    let alpha := am (row * size + col)
    if alpha < ALPHA_THRESHOLD then d
    else
      let safeAlpha := min alpha MAX_ALPHA
      let pixelIndex := ((imgY * (width : ℤ) + imgX) * 4).toNat
      chanLoop3 (restoreChannelQ safeAlpha logoValue) pixelIndex d

/-- The nested `for (row) { for (col) { ... } }` loop of
`WatermarkProcessor.process`. -/
def processorLoop (am : ℕ → ℚ) (size : ℕ) (cx cy : ℤ) (width height : ℕ)
    (logoValue : ℚ) (d : ℕ → ℚ) : ℕ → ℚ :=
  (List.range size).foldl
    (fun e row =>
      (List.range size).foldl
        (fun e2 col => pixelStep am size cx cy width height logoValue row col e2) e) d

/-- `WatermarkProcessor.process(imageData, forceMode, logoValue)`.  The two
`Option AlphaMap` arguments are the instance fields `alphaMap48`/`alphaMap96`
(both `null` until `init` finishes).  When the selected map is missing the
image is returned unchanged. -/
def process (alphaMap48 alphaMap96 : Option AlphaMap) (imageData : ImageData)
    (forceMode : ForceMode) (logoValue : ℚ) : ImageData :=
  let config := getWatermarkConfig imageData.width imageData.height forceMode
  match selectMap alphaMap48 alphaMap96 config with
  | none => imageData
  | some am =>
      { imageData with
        data := processorLoop am.data config.size config.x config.y
          imageData.width imageData.height logoValue imageData.data }

end WatermarkProcessor

/-- Synthetic watermark compositing from the spec's round-trip property:
`watermarked = original*(1-alpha) + alpha*255` on the RGB channels of every
in-bounds ROI pixel, using the alpha-map entry of that ROI position; all
other channel values are left as in the original.  (This is the test-harness
construction of §8 of the spec, not repository code.) -/
def compositeWatermark (am : AlphaMap) (config : PConfig) (img : ImageData) :
    ImageData :=
  { img with
    data := fun j =>
      let p := j / 4
      let ch := j % 4
      let x := p % img.width
      let y := p / img.width
      if ch < 3 ∧ y < img.height ∧ config.x ≤ (x : ℤ) ∧ (x : ℤ) < config.x + config.size ∧
          config.y ≤ (y : ℤ) ∧ (y : ℤ) < config.y + config.size then
        let a := am.data ((((y : ℤ) - config.y).toNat) * config.size +
          (((x : ℤ) - config.x).toNat))
        img.data j * (1 - a) + a * 255
      else img.data j }

/-! ### Concrete fixtures used to instantiate the theorems -/

/-- A concrete 48×48 all-zero (fully transparent) alpha map. -/
def zeroMap48 : AlphaMap := { width := 48, height := 48, data := fun _ => 0 }

/-- A concrete 48×48 alpha map whose only nonzero entry is 1/2 at index 0
(the ROI's top-left pixel). -/
def halfCornerMap48 : AlphaMap :=
  { width := 48, height := 48, data := fun k => if k = 0 then 1 / 2 else 0 }

/-- A concrete 80×80 image with every channel value 200.  Its automatic
config is SMALL with ROI origin `(0, 0)`. -/
def img200 : ImageData := { width := 80, height := 80, data := fun _ => 200 }

/-- A concrete 1×1 image, smaller than every `logoSize + margin`. -/
def tinyImg : ImageData := { width := 1, height := 1, data := fun _ => 7 }

/-! ### Generic lemmas about in-place loops -/

/-- A fold of steps that all leave index `j` alone leaves index `j` alone. -/
theorem foldl_frame_of_step {α : Type} (step : ℕ → (ℕ → α) → (ℕ → α))
    (l : List ℕ) (d : ℕ → α) (j : ℕ)
    (h : ∀ i ∈ l, ∀ e : ℕ → α, step i e j = e j) :
    (l.foldl (fun e i => step i e) d) j = d j := by
  induction l generalizing d with
  | nil => rfl
  | cons a t ih =>
      simp only [List.foldl_cons]
      rw [ih (step a d) (fun i hi e => h i (List.mem_cons_of_mem a hi) e)]
      exact h a (List.mem_cons_self a t) d

/-- A fold over `List.range n` in which only iteration `k` touches index `j`,
and whose `k`-th step's effect at `j` depends only on the current value at
`j`, acts at `j` like the single step `k`. -/
theorem foldl_range_single {α : Type} (step : ℕ → (ℕ → α) → (ℕ → α))
    (n k : ℕ) (d : ℕ → α) (j : ℕ) (hk : k < n)
    (hframe : ∀ i, i ≠ k → ∀ e : ℕ → α, step i e j = e j)
    (hcongr : ∀ e1 e2 : ℕ → α, e1 j = e2 j → step k e1 j = step k e2 j) :
    ((List.range n).foldl (fun e i => step i e) d) j = step k d j := by
  induction n with
  | zero => omega
  | succ m ih =>
      rw [List.range_succ, List.foldl_append, List.foldl_cons, List.foldl_nil]
      by_cases hkm : k = m
      · subst hkm
        have hpre : ((List.range k).foldl (fun e i => step i e) d) j = d j :=
          foldl_frame_of_step step (List.range k) d j
            (fun i hi e => hframe i (by have := List.mem_range.mp hi; omega) e)
        exact hcongr _ _ hpre
      · rw [hframe m (by omega) _]
        exact ih (by omega)

/-- `chanLoop3` unfolded to its three sequential updates. -/
theorem chanLoop3_eq (store : ℚ → ℚ) (pi : ℕ) (d : ℕ → ℚ) :
    chanLoop3 store pi d =
      Function.update
        (Function.update (Function.update d pi (store (d pi)))
          (pi + 1) (store ((Function.update d pi (store (d pi))) (pi + 1))))
        (pi + 2)
        (store ((Function.update (Function.update d pi (store (d pi)))
          (pi + 1) (store ((Function.update d pi (store (d pi))) (pi + 1)))) (pi + 2))) := by
  simp only [chanLoop3, show List.range 3 = [0, 1, 2] from rfl, List.foldl_cons,
    List.foldl_nil, Nat.add_zero]

/-- `chanLoop3` leaves every index other than `pi`, `pi+1`, `pi+2` alone. -/
theorem chanLoop3_frame (store : ℚ → ℚ) (pi : ℕ) (d : ℕ → ℚ) (j : ℕ)
    (h0 : j ≠ pi) (h1 : j ≠ pi + 1) (h2 : j ≠ pi + 2) :
    chanLoop3 store pi d j = d j := by
  rw [chanLoop3_eq]
  rw [Function.update_noteq h2, Function.update_noteq h1, Function.update_noteq h0]

/-- The value written by `chanLoop3` at its own channel `c < 3` is `store`
applied to the previous value of that very slot. -/
theorem chanLoop3_apply (store : ℚ → ℚ) (pi : ℕ) (d : ℕ → ℚ) (c : ℕ)
    (hc : c < 3) :
    chanLoop3 store pi d (pi + c) = store (d (pi + c)) := by
  rw [chanLoop3_eq]
  interval_cases c
  all_goals try simp only [Nat.add_zero]
  · rw [Function.update_noteq (by omega), Function.update_noteq (by omega),
      Function.update_same]
  · rw [Function.update_noteq (by omega), Function.update_same,
      Function.update_noteq (by omega)]
  · rw [Function.update_same, Function.update_noteq (by omega),
      Function.update_noteq (by omega)]

/-! ### Flat-index arithmetic -/

/-- Decoding a flat RGBA index: two pixel/channel encodings with in-range
column and channel agree only on equal coordinates. -/
theorem pixelIndex_inj (width x x2 y y2 c c2 : ℕ)
    (hx : x < width) (hx2 : x2 < width) (hc : c < 4) (hc2 : c2 < 4)
    (h : (y * width + x) * 4 + c = (y2 * width + x2) * 4 + c2) :
    x = x2 ∧ y = y2 ∧ c = c2 := by
  have hA : y * width + x = y2 * width + x2 ∧ c = c2 := by omega
  have hw : 0 < width := by omega
  have hxx : x = x2 := by
    have h1 := congrArg (fun t => t % width) hA.1
    simpa [Nat.mul_add_mod, Nat.mod_eq_of_lt hx, Nat.mod_eq_of_lt hx2,
      Nat.mul_comm] using h1
  refine ⟨hxx, ?_, hA.2⟩
  have : y * width = y2 * width := by omega
  exact Nat.eq_of_mul_eq_mul_right hw this

/-- A flat index of an in-bounds pixel lies inside the pixel array. -/
theorem pixelIndex_lt (width height x y c : ℕ)
    (hx : x < width) (hy : y < height) (hc : c < 4) :
    (y * width + x) * 4 + c < 4 * width * height := by
  have h1 : y * width + x < width * height := by
    calc y * width + x < y * width + width := by omega
    _ = (y + 1) * width := by ring
    _ ≤ height * width := Nat.mul_le_mul_right width hy
    _ = width * height := Nat.mul_comm height width
  have h2 : 4 * width * height = 4 * (width * height) := by ring
  omega

/-! ### Pointwise characterization of the `WatermarkProcessor` loop -/

/-- Conversion of the nonnegative flat pixel index computed in `ℤ` to `ℕ`. -/
theorem toNat_pixelIndex (A B : ℤ) (w : ℕ) (hA : 0 ≤ A) (hB : 0 ≤ B) :
    ((B * (w : ℤ) + A) * 4).toNat = (B.toNat * w + A.toNat) * 4 := by
  have h1 : ((B.toNat : ℤ)) = B := Int.toNat_of_nonneg hB
  have h2 : ((A.toNat : ℤ)) = A := Int.toNat_of_nonneg hA
  have hcast : (B * (w : ℤ) + A) * 4 = (((B.toNat * w + A.toNat) * 4 : ℕ) : ℤ) := by
    push_cast [h1, h2]; ring
  rw [hcast, Int.toNat_natCast]

/-- An iteration of the processor's pixel loop leaves flat index `j` alone
whenever `j` is not an RGB channel slot of that iteration's (in-bounds)
target pixel. -/
theorem pixelStep_frame (am : ℕ → ℚ) (size : ℕ) (cx cy : ℤ) (width height : ℕ)
    (lv : ℚ) (row col : ℕ) (e : ℕ → ℚ) (j : ℕ)
    (h : ∀ x y : ℕ, (x : ℤ) = cx + col → (y : ℤ) = cy + row → x < width →
      y < height → ∀ c : ℕ, c < 3 → j ≠ (y * width + x) * 4 + c) :
    WatermarkProcessor.pixelStep am size cx cy width height lv row col e j = e j := by
  simp only [WatermarkProcessor.pixelStep]
  by_cases hb : cx + (col : ℤ) < 0 ∨ (width : ℤ) ≤ cx + (col : ℤ) ∨
      cy + (row : ℤ) < 0 ∨ (height : ℤ) ≤ cy + (row : ℤ)
  · rw [if_pos hb]
  · rw [if_neg hb]
    push_neg at hb
    obtain ⟨h1, h2, h3, h4⟩ := hb
    by_cases hthr : am (row * size + col) < ALPHA_THRESHOLD
    · rw [if_pos hthr]
    · rw [if_neg hthr]
      have hx : (((cx + (col : ℤ)).toNat : ℤ)) = cx + (col : ℤ) :=
        Int.toNat_of_nonneg h1
      have hy : (((cy + (row : ℤ)).toNat : ℤ)) = cy + (row : ℤ) :=
        Int.toNat_of_nonneg h3
      have hxw : (cx + (col : ℤ)).toNat < width := by omega
      have hyh : (cy + (row : ℤ)).toNat < height := by omega
      have hpi := toNat_pixelIndex (cx + (col : ℤ)) (cy + (row : ℤ)) width h1 h3
      rw [hpi]
      refine chanLoop3_frame _ _ _ _ ?_ ?_ ?_
      · have := h _ _ hx hy hxw hyh 0 (by omega); omega
      · exact h _ _ hx hy hxw hyh 1 (by omega)
      · exact h _ _ hx hy hxw hyh 2 (by omega)

/-- The value an iteration of the processor's pixel loop leaves in an RGB
channel slot of its own (in-bounds) target pixel: unchanged below the alpha
threshold, the clamped-rounded inverse blend of the slot's previous value
otherwise. -/
theorem pixelStep_apply (am : ℕ → ℚ) (size : ℕ) (cx cy : ℤ) (width height : ℕ)
    (lv : ℚ) (row col x y c : ℕ)
    (hx : (x : ℤ) = cx + col) (hy : (y : ℤ) = cy + row)
    (hxw : x < width) (hyh : y < height) (hc : c < 3) (e : ℕ → ℚ) :
    WatermarkProcessor.pixelStep am size cx cy width height lv row col e
        ((y * width + x) * 4 + c) =
      if am (row * size + col) < ALPHA_THRESHOLD then e ((y * width + x) * 4 + c)
      else restoreChannelQ (min (am (row * size + col)) MAX_ALPHA) lv
        (e ((y * width + x) * 4 + c)) := by
  simp only [WatermarkProcessor.pixelStep]
  rw [if_neg (by omega)]
  have hxn : (cx + (col : ℤ)).toNat = x := by omega
  have hyn : (cy + (row : ℤ)).toNat = y := by omega
  have hpi := toNat_pixelIndex (cx + (col : ℤ)) (cy + (row : ℤ)) width
    (by omega) (by omega)
  rw [hxn, hyn] at hpi
  rw [hpi]
  by_cases hthr : am (row * size + col) < ALPHA_THRESHOLD
  · rw [if_pos hthr, if_pos hthr]
  · rw [if_neg hthr, if_neg hthr]
    exact chanLoop3_apply _ _ _ c hc

/-- Pointwise value of the full processor double loop at an RGB channel slot
of an in-bounds pixel of the ROI. -/
theorem processorLoop_apply (am : ℕ → ℚ) (size : ℕ) (cx cy : ℤ)
    (width height : ℕ) (lv : ℚ) (d : ℕ → ℚ) (x y c col row : ℕ)
    (hx : (x : ℤ) = cx + col) (hy : (y : ℤ) = cy + row)
    (hcol : col < size) (hrow : row < size)
    (hxw : x < width) (hyh : y < height) (hc : c < 3) :
    WatermarkProcessor.processorLoop am size cx cy width height lv d
        ((y * width + x) * 4 + c) =
      if am (row * size + col) < ALPHA_THRESHOLD then d ((y * width + x) * 4 + c)
      else restoreChannelQ (min (am (row * size + col)) MAX_ALPHA) lv
        (d ((y * width + x) * 4 + c)) := by
  have hcolframe : ∀ i, i ≠ col → ∀ e : ℕ → ℚ,
      WatermarkProcessor.pixelStep am size cx cy width height lv row i e
        ((y * width + x) * 4 + c) = e ((y * width + x) * 4 + c) := by
    intro i hi e
    apply pixelStep_frame
    intro x2 y2 hx2 hy2 hx2w hy2h c2 hc2 heq
    obtain ⟨hxx, hyy, hcc⟩ :=
      pixelIndex_inj width x x2 y y2 c c2 hxw hx2w (by omega) (by omega) heq
    omega
  have hinner : ∀ e : ℕ → ℚ,
      ((List.range size).foldl
        (fun e2 col2 =>
          WatermarkProcessor.pixelStep am size cx cy width height lv row col2 e2) e)
        ((y * width + x) * 4 + c) =
      if am (row * size + col) < ALPHA_THRESHOLD then e ((y * width + x) * 4 + c)
      else restoreChannelQ (min (am (row * size + col)) MAX_ALPHA) lv
        (e ((y * width + x) * 4 + c)) := by
    intro e
    have hcolcongr : ∀ e1 e2 : ℕ → ℚ,
        e1 ((y * width + x) * 4 + c) = e2 ((y * width + x) * 4 + c) →
        WatermarkProcessor.pixelStep am size cx cy width height lv row col e1
          ((y * width + x) * 4 + c) =
        WatermarkProcessor.pixelStep am size cx cy width height lv row col e2
          ((y * width + x) * 4 + c) := by
      intro e1 e2 h12
      rw [pixelStep_apply am size cx cy width height lv row col x y c hx hy hxw hyh hc e1,
        pixelStep_apply am size cx cy width height lv row col x y c hx hy hxw hyh hc e2, h12]
    refine Eq.trans (foldl_range_single
      (fun col2 e2 =>
        WatermarkProcessor.pixelStep am size cx cy width height lv row col2 e2)
      size col e ((y * width + x) * 4 + c) hcol hcolframe hcolcongr) ?_
    exact pixelStep_apply am size cx cy width height lv row col x y c hx hy hxw hyh hc e
  have hrowframe : ∀ r, r ≠ row → ∀ e : ℕ → ℚ,
      ((List.range size).foldl
        (fun e2 col2 =>
          WatermarkProcessor.pixelStep am size cx cy width height lv r col2 e2) e)
        ((y * width + x) * 4 + c) = e ((y * width + x) * 4 + c) := by
    intro r hr e
    refine foldl_frame_of_step
      (fun i e2 => WatermarkProcessor.pixelStep am size cx cy width height lv r i e2)
      (List.range size) e ((y * width + x) * 4 + c) ?_
    intro i hi e2
    apply pixelStep_frame
    intro x2 y2 hx2 hy2 hx2w hy2h c2 hc2 heq
    obtain ⟨hxx, hyy, hcc⟩ :=
      pixelIndex_inj width x x2 y y2 c c2 hxw hx2w (by omega) (by omega) heq
    omega
  have hrowcongr : ∀ e1 e2 : ℕ → ℚ,
      e1 ((y * width + x) * 4 + c) = e2 ((y * width + x) * 4 + c) →
      ((List.range size).foldl
        (fun e2b col2 =>
          WatermarkProcessor.pixelStep am size cx cy width height lv row col2 e2b) e1)
        ((y * width + x) * 4 + c) =
      ((List.range size).foldl
        (fun e2b col2 =>
          WatermarkProcessor.pixelStep am size cx cy width height lv row col2 e2b) e2)
        ((y * width + x) * 4 + c) := by
    intro e1 e2 h12
    rw [hinner e1, hinner e2, h12]
  exact Eq.trans (foldl_range_single
    (fun r e =>
      (List.range size).foldl
        (fun e2 col2 =>
          WatermarkProcessor.pixelStep am size cx cy width height lv r col2 e2) e)
    size row d ((y * width + x) * 4 + c) hrow hrowframe hrowcongr) (hinner d)

/-- The full processor double loop leaves flat index `j` alone whenever `j`
is not an RGB channel slot of an in-bounds ROI pixel. -/
theorem processorLoop_frame (am : ℕ → ℚ) (size : ℕ) (cx cy : ℤ)
    (width height : ℕ) (lv : ℚ) (d : ℕ → ℚ) (j : ℕ)
    (h : ∀ x y : ℕ, ∀ col row : ℕ, (x : ℤ) = cx + col → (y : ℤ) = cy + row →
      col < size → row < size → x < width → y < height →
      ∀ c : ℕ, c < 3 → j ≠ (y * width + x) * 4 + c) :
    WatermarkProcessor.processorLoop am size cx cy width height lv d j = d j := by
  refine foldl_frame_of_step
    (fun r e =>
      (List.range size).foldl
        (fun e2 col2 =>
          WatermarkProcessor.pixelStep am size cx cy width height lv r col2 e2) e)
    (List.range size) d j ?_
  intro r hr e
  refine foldl_frame_of_step
    (fun i e2 => WatermarkProcessor.pixelStep am size cx cy width height lv r i e2)
    (List.range size) e j ?_
  intro i hi e2
  apply pixelStep_frame
  intro x2 y2 hx2 hy2 hx2w hy2h c2 hc2
  exact h x2 y2 i r hx2 hy2 (List.mem_range.mp hi) (List.mem_range.mp hr) hx2w hy2h c2 hc2

/-! ### Pointwise characterization of the `WatermarkEngine` loop -/

/-- An iteration of the engine's flat loop leaves index `j` of the extracted
buffer alone whenever `j` is not one of its three RGB slots. -/
theorem engineStep_frame (alphaData : ℕ → ℚ) (lv intensity : ℚ) (i : ℕ)
    (e : ℕ → ℚ) (j : ℕ) (h : ∀ c : ℕ, c < 3 → j ≠ i * 4 + c) :
    WatermarkEngine.engineStep alphaData lv intensity i e j = e j := by
  simp only [WatermarkEngine.engineStep]
  by_cases hthr :
      WatermarkEngine.effectiveAlpha (alphaData i) intensity < ALPHA_THRESHOLD
  · rw [if_pos hthr]
  · rw [if_neg hthr]
    refine chanLoop3_frame _ _ _ _ ?_ ?_ ?_
    · have := h 0 (by omega); omega
    · exact h 1 (by omega)
    · exact h 2 (by omega)

/-- The value an iteration of the engine's loop leaves in its own RGB slot
`i*4+c`: unchanged when the intensity-scaled, clamped alpha is below the
threshold, the clamped-stored inverse blend otherwise. -/
theorem engineStep_apply (alphaData : ℕ → ℚ) (lv intensity : ℚ) (i c : ℕ)
    (hc : c < 3) (e : ℕ → ℚ) :
    WatermarkEngine.engineStep alphaData lv intensity i e (i * 4 + c) =
      if WatermarkEngine.effectiveAlpha (alphaData i) intensity < ALPHA_THRESHOLD
      then e (i * 4 + c)
      else WatermarkEngine.engineStoreChannel
        (WatermarkEngine.effectiveAlpha (alphaData i) intensity * lv)
        (1 - WatermarkEngine.effectiveAlpha (alphaData i) intensity)
        (e (i * 4 + c)) := by
  simp only [WatermarkEngine.engineStep]
  by_cases hthr :
      WatermarkEngine.effectiveAlpha (alphaData i) intensity < ALPHA_THRESHOLD
  · rw [if_pos hthr, if_pos hthr]
  · rw [if_neg hthr, if_neg hthr]
    exact chanLoop3_apply _ _ _ c hc

/-- The engine's whole loop leaves index `j` of the extracted buffer alone
whenever `j` is not an RGB slot of an iteration below `len`. -/
theorem engineLoop_frame (alphaData : ℕ → ℚ) (len : ℕ) (lv intensity : ℚ)
    (d : ℕ → ℚ) (j : ℕ) (h : ∀ i, i < len → ∀ c : ℕ, c < 3 → j ≠ i * 4 + c) :
    WatermarkEngine.engineLoop alphaData len lv intensity d j = d j := by
  refine foldl_frame_of_step
    (fun i e => WatermarkEngine.engineStep alphaData lv intensity i e)
    (List.range len) d j ?_
  intro i hi e
  exact engineStep_frame alphaData lv intensity i e j (h i (List.mem_range.mp hi))

/-- Pointwise value of the engine's whole loop at RGB slot `i*4+c`. -/
theorem engineLoop_apply (alphaData : ℕ → ℚ) (len : ℕ) (lv intensity : ℚ)
    (d : ℕ → ℚ) (i c : ℕ) (hi : i < len) (hc : c < 3) :
    WatermarkEngine.engineLoop alphaData len lv intensity d (i * 4 + c) =
      if WatermarkEngine.effectiveAlpha (alphaData i) intensity < ALPHA_THRESHOLD
      then d (i * 4 + c)
      else WatermarkEngine.engineStoreChannel
        (WatermarkEngine.effectiveAlpha (alphaData i) intensity * lv)
        (1 - WatermarkEngine.effectiveAlpha (alphaData i) intensity)
        (d (i * 4 + c)) := by
  refine Eq.trans (foldl_range_single
    (fun i2 e => WatermarkEngine.engineStep alphaData lv intensity i2 e)
    len i d (i * 4 + c) hi ?_ ?_)
    (engineStep_apply alphaData lv intensity i c hc d)
  · intro i2 hi2 e
    refine engineStep_frame alphaData lv intensity i2 e _ ?_
    intro c2 hc2
    omega
  · intro e1 e2 h12
    show WatermarkEngine.engineStep alphaData lv intensity i e1 (i * 4 + c) =
      WatermarkEngine.engineStep alphaData lv intensity i e2 (i * 4 + c)
    rw [engineStep_apply alphaData lv intensity i c hc e1,
      engineStep_apply alphaData lv intensity i c hc e2, h12]

/-! ### Decoding the extraction and write-back -/

/-- Value of the extracted ROI buffer at slot `(r*size+c)*4 + ch`. -/
theorem extractROI_apply (d : ℕ → ℚ) (width rx ry size r c ch : ℕ)
    (hc : c < size) (hch : ch < 4) :
    WatermarkEngine.extractROI d width rx ry size ((r * size + c) * 4 + ch) =
      d (((ry + r) * width + (rx + c)) * 4 + ch) := by
  simp only [WatermarkEngine.extractROI]
  have hsize : 0 < size := by omega
  have hp : ((r * size + c) * 4 + ch) / 4 = r * size + c := by omega
  have hm : ((r * size + c) * 4 + ch) % 4 = ch := by omega
  rw [hp, hm]
  have h1 : (r * size + c) / size = r := by
    rw [Nat.mul_comm r size, Nat.mul_add_div hsize, Nat.div_eq_of_lt hc,
      Nat.add_zero]
  have h2 : (r * size + c) % size = c := by
    rw [Nat.mul_comm r size, Nat.mul_add_mod]; exact Nat.mod_eq_of_lt hc
  rw [h1, h2]

/-- Value of the written-back canvas at channel `c` of in-bounds pixel
`(x,y)`: the final extracted buffer inside the block, the previous canvas
value outside it. -/
theorem putBackROI_apply (orig final : ℕ → ℚ) (width height rx ry size x y c : ℕ)
    (hx : x < width) (hy : y < height) (hc : c < 4) :
    WatermarkEngine.putBackROI orig final width height rx ry size
        ((y * width + x) * 4 + c) =
      if rx ≤ x ∧ x < rx + size ∧ ry ≤ y ∧ y < ry + size then
        final (((y - ry) * size + (x - rx)) * 4 + c)
      else orig ((y * width + x) * 4 + c) := by
  simp only [WatermarkEngine.putBackROI]
  have hw : 0 < width := by omega
  have hp : ((y * width + x) * 4 + c) / 4 = y * width + x := by omega
  have hm : ((y * width + x) * 4 + c) % 4 = c := by omega
  rw [hp, hm]
  have h1 : (y * width + x) % width = x := by
    rw [Nat.mul_comm y width, Nat.mul_add_mod]; exact Nat.mod_eq_of_lt hx
  have h2 : (y * width + x) / width = y := by
    rw [Nat.mul_comm y width, Nat.mul_add_div hw, Nat.div_eq_of_lt hx,
      Nat.add_zero]
  rw [h1, h2]
  by_cases hin : rx ≤ x ∧ x < rx + size ∧ ry ≤ y ∧ y < ry + size
  · rw [if_pos ⟨hin.1, hin.2.1, hin.2.2.1, hin.2.2.2, hy⟩, if_pos hin]
  · rw [if_neg (by tauto), if_neg hin]

/-! ### Claims -/

/-- Claim C3: under AUTO mode the variant selector chooses the LARGE
placement (logoSize 96, margins 64) if and only if both width and height are
strictly greater than 1024, and SMALL (logoSize 48, margins 32) otherwise;
in particular exactly 1024×1024 selects SMALL.  Stated for both
implementations. -/
theorem claim_C3_auto_variant_boundary : ∀ width height : ℕ,
    (WatermarkEngine.getWatermarkConfig width height =
        WatermarkEngine.getWatermarkConfigLarge ↔ (1024 < width ∧ 1024 < height))
  ∧ (WatermarkEngine.getWatermarkConfig width height =
        WatermarkEngine.getWatermarkConfigSmall ↔ ¬(1024 < width ∧ 1024 < height))
  ∧ WatermarkEngine.getWatermarkConfigLarge =
      { margin_right := 64, margin_bottom := 64, logo_size := 96, size := 96 }
  ∧ WatermarkEngine.getWatermarkConfigSmall =
      { margin_right := 32, margin_bottom := 32, logo_size := 48, size := 48 }
  ∧ (WatermarkProcessor.getWatermarkConfig width height ForceMode.auto).size =
      (if 1024 < width ∧ 1024 < height then 96 else 48)
  ∧ (WatermarkProcessor.getWatermarkConfig width height ForceMode.auto).margin =
      (if 1024 < width ∧ 1024 < height then 64 else 32)
  ∧ WatermarkEngine.getWatermarkConfig 1024 1024 =
      WatermarkEngine.getWatermarkConfigSmall
  ∧ (WatermarkProcessor.getWatermarkConfig 1024 1024 ForceMode.auto).size = 48 := by
  intro width height
  refine ⟨?_, ?_, rfl, rfl, ?_, ?_, by decide, by decide⟩
  · unfold WatermarkEngine.getWatermarkConfig
    by_cases h : 1024 < width ∧ 1024 < height
    · rw [if_pos h]; exact ⟨fun _ => h, fun _ => rfl⟩
    · rw [if_neg h]
      exact ⟨fun hL => absurd hL (by decide), fun hh => absurd hh h⟩
  · unfold WatermarkEngine.getWatermarkConfig
    by_cases h : 1024 < width ∧ 1024 < height
    · rw [if_pos h]
      exact ⟨fun hL => absurd hL (by decide), fun hh => absurd h hh⟩
    · rw [if_neg h]; exact ⟨fun _ => h, fun _ => rfl⟩
  · by_cases h : 1024 < width ∧ 1024 < height <;>
      simp [WatermarkProcessor.getWatermarkConfig, h]
  · by_cases h : 1024 < width ∧ 1024 < height <;>
      simp [WatermarkProcessor.getWatermarkConfig, h]

/-- Claim C9: an explicit SMALL or LARGE override makes the variant selector
return the corresponding fixed placement unconditionally, for every pair of
image dimensions.  Stated for both implementations. -/
theorem claim_C9_override_precedence : ∀ width height : ℕ,
    WatermarkEngine.selectConfig (some WatermarkSize.large) width height =
      WatermarkEngine.getWatermarkConfigLarge
  ∧ WatermarkEngine.selectConfig (some WatermarkSize.small) width height =
      WatermarkEngine.getWatermarkConfigSmall
  ∧ (WatermarkProcessor.getWatermarkConfig width height ForceMode.force96).size = 96
  ∧ (WatermarkProcessor.getWatermarkConfig width height ForceMode.force96).margin = 64
  ∧ (WatermarkProcessor.getWatermarkConfig width height ForceMode.force48).size = 48
  ∧ (WatermarkProcessor.getWatermarkConfig width height ForceMode.force48).margin = 32 := by
  intro width height
  exact ⟨rfl, rfl, rfl, rfl, rfl, rfl⟩

/-- Claim C7: for every alpha-map entry and every intensity value, the
effective alpha substituted into the inverse-blend formula is clamped to at
most 0.99, so the denominator `1 - alpha` is at least 0.01; likewise for the
processor's `safeAlpha = min(alpha, MAX_ALPHA)` clamp. -/
theorem claim_C7_alpha_clamp : ∀ entry intensity a : ℚ,
    WatermarkEngine.effectiveAlpha entry intensity ≤ 99 / 100
  ∧ (1 : ℚ) / 100 ≤ 1 - WatermarkEngine.effectiveAlpha entry intensity
  ∧ min a MAX_ALPHA ≤ 99 / 100
  ∧ (1 : ℚ) / 100 ≤ 1 - min a MAX_ALPHA := by
  intro entry intensity a
  have h1 : WatermarkEngine.effectiveAlpha entry intensity ≤ 99 / 100 := by
    simp only [WatermarkEngine.effectiveAlpha, MAX_ALPHA]
    exact min_le_right _ _
  have h2 : min a MAX_ALPHA ≤ 99 / 100 := by
    simp only [MAX_ALPHA]
    exact min_le_right _ _
  exact ⟨h1, by linarith, h2, by linarith⟩

/-- Claim C5, counterexample: a concrete `WatermarkProcessor.process` call
made before the alpha maps have loaded (both instance fields still `null`)
returns the image unchanged and surfaces no error of any kind — refuting
"the call fails with an EngineNotReady error ... never returns a result". -/
theorem claim_C5_counterexample :
    WatermarkProcessor.process none none tinyImg ForceMode.auto 255 = tinyImg := by
  rfl

/-- Claim C5 (amended): a `WatermarkEngine.process` call made before
successful initialization fails with the engine-not-initialized error,
surfaced to the caller; a `WatermarkProcessor.process` call made before the
alpha maps have loaded instead silently returns the image unchanged. -/
theorem claim_C5_not_ready_behavior :
    (∀ (small large : AlphaMap) (lv intensity : ℚ) (img : ImageData)
        (fs : Option WatermarkSize),
      WatermarkEngine.process
        { ready := false, small := small, large := large, logoValue := lv }
        img fs intensity = Except.error "Watermark engine not initialized")
  ∧ (∀ (img : ImageData) (fm : ForceMode) (lv : ℚ),
      WatermarkProcessor.process none none img fm lv = img) := by
  constructor
  · intro small large lv intensity img fs
    rfl
  · intro img fm lv
    have h : WatermarkProcessor.selectMap none none
        (WatermarkProcessor.getWatermarkConfig img.width img.height fm) = none := by
      unfold WatermarkProcessor.selectMap
      exact ite_self none
    simp only [WatermarkProcessor.process, h]

/-- Claim C10: in the `WatermarkEngine` implementation, whenever the
computed ROI origin is negative in either axis, `process` returns
immediately and the entire image is left unchanged — no partial restoration
is performed. -/
theorem claim_C10_negative_roi_whole_bailout
    (st : WatermarkEngineState) (canvas : ImageData)
    (fs : Option WatermarkSize) (intensity : ℚ)
    (hready : st.ready = true)
    (hroi :
      WatermarkEngine.roiX
          (WatermarkEngine.selectConfig fs canvas.width canvas.height)
          canvas.width < 0 ∨
      WatermarkEngine.roiY
          (WatermarkEngine.selectConfig fs canvas.width canvas.height)
          canvas.height < 0) :
    WatermarkEngine.process st canvas fs intensity = Except.ok canvas := by
  simp only [WatermarkEngine.process]
  rw [if_neg (by rw [hready]; exact fun h => Bool.noConfusion h), if_pos hroi]

/-- Witness for claim C10: a ready engine and a 1×1 canvas, whose SMALL ROI
origin is negative; the call returns the canvas untouched. -/
theorem claim_C10_witness :
    ({ ready := true, small := zeroMap48, large := zeroMap48,
        logoValue := 255 } : WatermarkEngineState).ready = true
  ∧ (WatermarkEngine.roiX
        (WatermarkEngine.selectConfig none tinyImg.width tinyImg.height)
        tinyImg.width < 0 ∨
      WatermarkEngine.roiY
        (WatermarkEngine.selectConfig none tinyImg.width tinyImg.height)
        tinyImg.height < 0)
  ∧ WatermarkEngine.process
      { ready := true, small := zeroMap48, large := zeroMap48, logoValue := 255 }
      tinyImg none 255 = Except.ok tinyImg :=
  ⟨rfl, by decide,
    claim_C10_negative_roi_whole_bailout _ _ _ _ rfl (by decide)⟩

/-- Unfolding `WatermarkProcessor.process` when the selected alpha map is
present. -/
theorem processor_process_eq_some (am48 am96 : Option AlphaMap) (img : ImageData)
    (fm : ForceMode) (lv : ℚ) (am : AlphaMap)
    (ham : WatermarkProcessor.selectMap am48 am96
      (WatermarkProcessor.getWatermarkConfig img.width img.height fm) = some am) :
    WatermarkProcessor.process am48 am96 img fm lv =
      { img with
        data := WatermarkProcessor.processorLoop am.data
          (WatermarkProcessor.getWatermarkConfig img.width img.height fm).size
          (WatermarkProcessor.getWatermarkConfig img.width img.height fm).x
          (WatermarkProcessor.getWatermarkConfig img.width img.height fm).y
          img.width img.height lv img.data } := by
  simp only [WatermarkProcessor.process, ham]

/-- Unfolding `WatermarkProcessor.process` when the selected alpha map is
missing. -/
theorem processor_process_eq_none (am48 am96 : Option AlphaMap) (img : ImageData)
    (fm : ForceMode) (lv : ℚ)
    (ham : WatermarkProcessor.selectMap am48 am96
      (WatermarkProcessor.getWatermarkConfig img.width img.height fm) = none) :
    WatermarkProcessor.process am48 am96 img fm lv = img := by
  simp only [WatermarkProcessor.process, ham]

/-- Claim C2: for every ROI pixel whose effective alpha passes the
threshold, each of the three color channels is set to
`(watermarked - alpha*255.0) / (1 - alpha)` with the clamped alpha,
rounded to the nearest integer and clamped to `[0,255]` before storing. -/
theorem claim_C2_inverse_blend_formula
    (am48 am96 : Option AlphaMap) (img : ImageData) (fm : ForceMode)
    (am : AlphaMap) (x y c col row : ℕ)
    (ham : WatermarkProcessor.selectMap am48 am96
      (WatermarkProcessor.getWatermarkConfig img.width img.height fm) = some am)
    (hx : (x : ℤ) =
      (WatermarkProcessor.getWatermarkConfig img.width img.height fm).x + col)
    (hy : (y : ℤ) =
      (WatermarkProcessor.getWatermarkConfig img.width img.height fm).y + row)
    (hcol : col < (WatermarkProcessor.getWatermarkConfig img.width img.height fm).size)
    (hrow : row < (WatermarkProcessor.getWatermarkConfig img.width img.height fm).size)
    (hxw : x < img.width) (hyh : y < img.height) (hc : c < 3)
    (hthr : ALPHA_THRESHOLD ≤ am.data
      (row * (WatermarkProcessor.getWatermarkConfig img.width img.height fm).size + col)) :
    (WatermarkProcessor.process am48 am96 img fm 255).data
        ((y * img.width + x) * 4 + c) =
      ((max 0 (min 255 (jsRound
        ((img.data ((y * img.width + x) * 4 + c) -
            min (am.data (row *
              (WatermarkProcessor.getWatermarkConfig img.width img.height fm).size + col))
              MAX_ALPHA * 255) /
          (1 - min (am.data (row *
              (WatermarkProcessor.getWatermarkConfig img.width img.height fm).size + col))
              MAX_ALPHA)))) : ℤ) : ℚ) := by
  rw [processor_process_eq_some am48 am96 img fm 255 am ham]
  show WatermarkProcessor.processorLoop am.data
      (WatermarkProcessor.getWatermarkConfig img.width img.height fm).size
      (WatermarkProcessor.getWatermarkConfig img.width img.height fm).x
      (WatermarkProcessor.getWatermarkConfig img.width img.height fm).y
      img.width img.height 255 img.data ((y * img.width + x) * 4 + c) = _
  rw [processorLoop_apply am.data
    (WatermarkProcessor.getWatermarkConfig img.width img.height fm).size
    (WatermarkProcessor.getWatermarkConfig img.width img.height fm).x
    (WatermarkProcessor.getWatermarkConfig img.width img.height fm).y
    img.width img.height 255 img.data x y c col row hx hy hcol hrow hxw hyh hc]
  rw [if_neg (not_lt.mpr hthr)]
  rfl

/-- Witness for claim C2, realizing the spec's worked example: alpha-map
value 0.5, watermarked value 200, `(200 - 0.5*255)/0.5 = 145`. -/
theorem claim_C2_witness :
    ALPHA_THRESHOLD ≤ halfCornerMap48.data 0
  ∧ (WatermarkProcessor.process (some halfCornerMap48) (some zeroMap48) img200
      ForceMode.auto 255).data 0 = 145 :=
  ⟨by norm_num [halfCornerMap48, ALPHA_THRESHOLD],
    Eq.trans
      (claim_C2_inverse_blend_formula (some halfCornerMap48) (some zeroMap48)
        img200 ForceMode.auto halfCornerMap48 0 0 0 0 0
        rfl (by decide) (by decide) (by decide) (by decide)
        (by decide) (by decide) (by decide)
        (by norm_num [halfCornerMap48, ALPHA_THRESHOLD,
          WatermarkProcessor.getWatermarkConfig, img200]))
      (by norm_num [img200, halfCornerMap48, WatermarkProcessor.getWatermarkConfig,
        MAX_ALPHA, jsRound, min_def])⟩

/-- Claim C4: restoring an image whose ROI origin would be negative in
either axis neither fails nor writes outside the image's pixel array: the
call is total, preserves the dimensions, and every flat index at or beyond
the pixel array's end (`4*width*height`) is untouched, so the call degrades
to a silent partial or full no-op. -/
theorem claim_C4_undersized_bounds_safety
    (am48 am96 : Option AlphaMap) (img : ImageData) (fm : ForceMode) (lv : ℚ)
    (hneg : (WatermarkProcessor.getWatermarkConfig img.width img.height fm).x < 0 ∨
      (WatermarkProcessor.getWatermarkConfig img.width img.height fm).y < 0) :
    (WatermarkProcessor.process am48 am96 img fm lv).width = img.width
  ∧ (WatermarkProcessor.process am48 am96 img fm lv).height = img.height
  ∧ ∀ j : ℕ, 4 * img.width * img.height ≤ j →
      (WatermarkProcessor.process am48 am96 img fm lv).data j = img.data j := by
  cases hsel : WatermarkProcessor.selectMap am48 am96
      (WatermarkProcessor.getWatermarkConfig img.width img.height fm) with
  | none =>
      rw [processor_process_eq_none am48 am96 img fm lv hsel]
      exact ⟨rfl, rfl, fun j hj => rfl⟩
  | some am =>
      rw [processor_process_eq_some am48 am96 img fm lv am hsel]
      refine ⟨rfl, rfl, fun j hj => ?_⟩
      show WatermarkProcessor.processorLoop am.data
        (WatermarkProcessor.getWatermarkConfig img.width img.height fm).size
        (WatermarkProcessor.getWatermarkConfig img.width img.height fm).x
        (WatermarkProcessor.getWatermarkConfig img.width img.height fm).y
        img.width img.height lv img.data j = img.data j
      refine processorLoop_frame _ _ _ _ _ _ _ _ j ?_
      intro x y col row hx hy hcol hrow hxw hyh c hc heq
      have hlt := pixelIndex_lt img.width img.height x y c hxw hyh (by omega)
      omega

/-- Witness for claim C4: a 1×1 image (SMALL ROI origin −79) with both alpha
maps loaded; index 4, the first slot past the pixel array, is untouched. -/
theorem claim_C4_witness :
    ((WatermarkProcessor.getWatermarkConfig tinyImg.width tinyImg.height
        ForceMode.auto).x < 0 ∨
      (WatermarkProcessor.getWatermarkConfig tinyImg.width tinyImg.height
        ForceMode.auto).y < 0)
  ∧ (WatermarkProcessor.process (some zeroMap48) (some zeroMap48) tinyImg
      ForceMode.auto 255).data 4 = tinyImg.data 4 :=
  ⟨by decide,
    (claim_C4_undersized_bounds_safety (some zeroMap48) (some zeroMap48) tinyImg
      ForceMode.auto 255 (by decide)).2.2 4 (by decide)⟩

/-- `WatermarkEngine.process` throws when the engine is not initialized. -/
theorem engine_process_not_ready (st : WatermarkEngineState) (canvas : ImageData)
    (fs : Option WatermarkSize) (intensity : ℚ) (h : st.ready = false) :
    WatermarkEngine.process st canvas fs intensity =
      Except.error "Watermark engine not initialized" := by
  simp only [WatermarkEngine.process]
  rw [if_pos h]

/-- The caller-observed image of a not-ready `process` call is the untouched
canvas (the call threw). -/
theorem engine_runProcess_not_ready (st : WatermarkEngineState)
    (canvas : ImageData) (fs : Option WatermarkSize) (intensity : ℚ)
    (h : st.ready = false) :
    WatermarkEngine.runProcess st canvas fs intensity = canvas := by
  simp only [WatermarkEngine.runProcess,
    engine_process_not_ready st canvas fs intensity h, Except.toOption,
    Option.getD]

/-- The caller-observed image of a successful `process` call. -/
theorem engine_runProcess_ok (st : WatermarkEngineState) (canvas : ImageData)
    (fs : Option WatermarkSize) (intensity : ℚ) (out : ImageData)
    (h : WatermarkEngine.process st canvas fs intensity = Except.ok out) :
    WatermarkEngine.runProcess st canvas fs intensity = out := by
  simp only [WatermarkEngine.runProcess, h, Except.toOption, Option.getD]

/-- Unfolding `WatermarkEngine.process` in the main (ready, nonnegative-ROI)
branch: extract, blend, write back. -/
theorem engine_process_ok_main (st : WatermarkEngineState) (canvas : ImageData)
    (fs : Option WatermarkSize) (intensity : ℚ)
    (hready : ¬ st.ready = false)
    (hroi : ¬(WatermarkEngine.roiX
        (WatermarkEngine.selectConfig fs canvas.width canvas.height)
        canvas.width < 0 ∨
      WatermarkEngine.roiY
        (WatermarkEngine.selectConfig fs canvas.width canvas.height)
        canvas.height < 0)) :
    WatermarkEngine.process st canvas fs intensity = Except.ok { canvas with
      data := WatermarkEngine.putBackROI canvas.data
        (WatermarkEngine.engineLoop
          (WatermarkEngine.selectMap st
            (WatermarkEngine.selectConfig fs canvas.width canvas.height)).data
          ((WatermarkEngine.selectMap st
              (WatermarkEngine.selectConfig fs canvas.width canvas.height)).width *
            (WatermarkEngine.selectMap st
              (WatermarkEngine.selectConfig fs canvas.width canvas.height)).height)
          st.logoValue intensity
          (WatermarkEngine.extractROI canvas.data canvas.width
            (WatermarkEngine.roiX
              (WatermarkEngine.selectConfig fs canvas.width canvas.height)
              canvas.width).toNat
            (WatermarkEngine.roiY
              (WatermarkEngine.selectConfig fs canvas.width canvas.height)
              canvas.height).toNat
            (WatermarkEngine.selectConfig fs canvas.width canvas.height).logo_size))
        canvas.width canvas.height
        (WatermarkEngine.roiX
          (WatermarkEngine.selectConfig fs canvas.width canvas.height)
          canvas.width).toNat
        (WatermarkEngine.roiY
          (WatermarkEngine.selectConfig fs canvas.width canvas.height)
          canvas.height).toNat
        (WatermarkEngine.selectConfig fs canvas.width canvas.height).logo_size } := by
  simp only [WatermarkEngine.process]
  rw [if_neg hready, if_neg hroi]

/-- Data of the caller-observed image in the main branch. -/
theorem engine_runProcess_data_main (st : WatermarkEngineState)
    (canvas : ImageData) (fs : Option WatermarkSize) (intensity : ℚ)
    (hready : ¬ st.ready = false)
    (hroi : ¬(WatermarkEngine.roiX
        (WatermarkEngine.selectConfig fs canvas.width canvas.height)
        canvas.width < 0 ∨
      WatermarkEngine.roiY
        (WatermarkEngine.selectConfig fs canvas.width canvas.height)
        canvas.height < 0)) :
    (WatermarkEngine.runProcess st canvas fs intensity).data =
      WatermarkEngine.putBackROI canvas.data
        (WatermarkEngine.engineLoop
          (WatermarkEngine.selectMap st
            (WatermarkEngine.selectConfig fs canvas.width canvas.height)).data
          ((WatermarkEngine.selectMap st
              (WatermarkEngine.selectConfig fs canvas.width canvas.height)).width *
            (WatermarkEngine.selectMap st
              (WatermarkEngine.selectConfig fs canvas.width canvas.height)).height)
          st.logoValue intensity
          (WatermarkEngine.extractROI canvas.data canvas.width
            (WatermarkEngine.roiX
              (WatermarkEngine.selectConfig fs canvas.width canvas.height)
              canvas.width).toNat
            (WatermarkEngine.roiY
              (WatermarkEngine.selectConfig fs canvas.width canvas.height)
              canvas.height).toNat
            (WatermarkEngine.selectConfig fs canvas.width canvas.height).logo_size))
        canvas.width canvas.height
        (WatermarkEngine.roiX
          (WatermarkEngine.selectConfig fs canvas.width canvas.height)
          canvas.width).toNat
        (WatermarkEngine.roiY
          (WatermarkEngine.selectConfig fs canvas.width canvas.height)
          canvas.height).toNat
        (WatermarkEngine.selectConfig fs canvas.width canvas.height).logo_size := by
  rw [engine_runProcess_ok st canvas fs intensity _
    (engine_process_ok_main st canvas fs intensity hready hroi)]

/-- Dimensions of the caller-observed image are always preserved. -/
theorem engine_runProcess_dims (st : WatermarkEngineState) (canvas : ImageData)
    (fs : Option WatermarkSize) (intensity : ℚ) :
    (WatermarkEngine.runProcess st canvas fs intensity).width = canvas.width
  ∧ (WatermarkEngine.runProcess st canvas fs intensity).height = canvas.height := by
  by_cases hready : st.ready = false
  · rw [engine_runProcess_not_ready st canvas fs intensity hready]
    exact ⟨rfl, rfl⟩
  · by_cases hroi : WatermarkEngine.roiX
        (WatermarkEngine.selectConfig fs canvas.width canvas.height)
        canvas.width < 0 ∨
      WatermarkEngine.roiY
        (WatermarkEngine.selectConfig fs canvas.width canvas.height)
        canvas.height < 0
    · rw [engine_runProcess_ok st canvas fs intensity canvas
        (by simp only [WatermarkEngine.process]; rw [if_neg hready, if_pos hroi])]
      exact ⟨rfl, rfl⟩
    · rw [engine_runProcess_ok st canvas fs intensity _
        (engine_process_ok_main st canvas fs intensity hready hroi)]
      exact ⟨rfl, rfl⟩

/-- Claim C8: every restore call mutates only the RGB channels of pixels
inside the ROI.  Every channel of every pixel outside the ROI, the alpha
channel of every pixel (inside the ROI included), and every index beyond the
pixel array are unchanged, and the image's dimensions are unchanged.  Stated
for both implementations. -/
theorem claim_C8_mutation_confined_to_roi :
    (∀ (am48 am96 : Option AlphaMap) (img : ImageData) (fm : ForceMode) (lv : ℚ),
      (WatermarkProcessor.process am48 am96 img fm lv).width = img.width
      ∧ (WatermarkProcessor.process am48 am96 img fm lv).height = img.height
      ∧ (∀ x y c : ℕ, x < img.width → y < img.height → c < 4 →
          (c = 3 ∨
            ¬((WatermarkProcessor.getWatermarkConfig img.width img.height fm).x ≤ (x : ℤ)
              ∧ (x : ℤ) < (WatermarkProcessor.getWatermarkConfig img.width img.height fm).x +
                  (WatermarkProcessor.getWatermarkConfig img.width img.height fm).size
              ∧ (WatermarkProcessor.getWatermarkConfig img.width img.height fm).y ≤ (y : ℤ)
              ∧ (y : ℤ) < (WatermarkProcessor.getWatermarkConfig img.width img.height fm).y +
                  (WatermarkProcessor.getWatermarkConfig img.width img.height fm).size)) →
          (WatermarkProcessor.process am48 am96 img fm lv).data
              ((y * img.width + x) * 4 + c) =
            img.data ((y * img.width + x) * 4 + c))
      ∧ (∀ j : ℕ, 4 * img.width * img.height ≤ j →
          (WatermarkProcessor.process am48 am96 img fm lv).data j = img.data j))
  ∧ (∀ (st : WatermarkEngineState) (canvas : ImageData)
        (fs : Option WatermarkSize) (intensity : ℚ),
      (WatermarkEngine.runProcess st canvas fs intensity).width = canvas.width
      ∧ (WatermarkEngine.runProcess st canvas fs intensity).height = canvas.height
      ∧ (∀ x y c : ℕ, x < canvas.width → y < canvas.height → c < 4 →
          (c = 3 ∨
            ¬(WatermarkEngine.roiX
                (WatermarkEngine.selectConfig fs canvas.width canvas.height)
                canvas.width ≤ (x : ℤ)
              ∧ (x : ℤ) < WatermarkEngine.roiX
                  (WatermarkEngine.selectConfig fs canvas.width canvas.height)
                  canvas.width +
                (WatermarkEngine.selectConfig fs canvas.width canvas.height).logo_size
              ∧ WatermarkEngine.roiY
                  (WatermarkEngine.selectConfig fs canvas.width canvas.height)
                  canvas.height ≤ (y : ℤ)
              ∧ (y : ℤ) < WatermarkEngine.roiY
                  (WatermarkEngine.selectConfig fs canvas.width canvas.height)
                  canvas.height +
                (WatermarkEngine.selectConfig fs canvas.width canvas.height).logo_size)) →
          (WatermarkEngine.runProcess st canvas fs intensity).data
              ((y * canvas.width + x) * 4 + c) =
            canvas.data ((y * canvas.width + x) * 4 + c))) := by
  constructor
  · intro am48 am96 img fm lv
    cases hsel : WatermarkProcessor.selectMap am48 am96
        (WatermarkProcessor.getWatermarkConfig img.width img.height fm) with
    | none =>
        rw [processor_process_eq_none am48 am96 img fm lv hsel]
        exact ⟨rfl, rfl, fun x y c _ _ _ _ => rfl, fun j _ => rfl⟩
    | some am =>
        rw [processor_process_eq_some am48 am96 img fm lv am hsel]
        refine ⟨rfl, rfl, ?_, ?_⟩
        · intro x y c hx hy hc hout
          show WatermarkProcessor.processorLoop am.data
            (WatermarkProcessor.getWatermarkConfig img.width img.height fm).size
            (WatermarkProcessor.getWatermarkConfig img.width img.height fm).x
            (WatermarkProcessor.getWatermarkConfig img.width img.height fm).y
            img.width img.height lv img.data ((y * img.width + x) * 4 + c) =
            img.data ((y * img.width + x) * 4 + c)
          refine processorLoop_frame _ _ _ _ _ _ _ _ _ ?_
          intro x2 y2 col row hx2 hy2 hcol hrow hx2w hy2h c2 hc2 heq
          obtain ⟨hxx, hyy, hcc⟩ :=
            pixelIndex_inj img.width x x2 y y2 c c2 hx hx2w hc (by omega) heq
          rcases hout with hc3 | houtroi
          · omega
          · exact houtroi ⟨by omega, by omega, by omega, by omega⟩
        · intro j hj
          show WatermarkProcessor.processorLoop am.data
            (WatermarkProcessor.getWatermarkConfig img.width img.height fm).size
            (WatermarkProcessor.getWatermarkConfig img.width img.height fm).x
            (WatermarkProcessor.getWatermarkConfig img.width img.height fm).y
            img.width img.height lv img.data j = img.data j
          refine processorLoop_frame _ _ _ _ _ _ _ _ j ?_
          intro x y col row hx hy hcol hrow hxw hyh c hc heq
          have hlt := pixelIndex_lt img.width img.height x y c hxw hyh (by omega)
          omega
  · intro st canvas fs intensity
    refine ⟨(engine_runProcess_dims st canvas fs intensity).1,
      (engine_runProcess_dims st canvas fs intensity).2, ?_⟩
    intro x y c hx hy hc hout
    by_cases hready : st.ready = false
    · rw [engine_runProcess_not_ready st canvas fs intensity hready]
    · by_cases hroi : WatermarkEngine.roiX
          (WatermarkEngine.selectConfig fs canvas.width canvas.height)
          canvas.width < 0 ∨
        WatermarkEngine.roiY
          (WatermarkEngine.selectConfig fs canvas.width canvas.height)
          canvas.height < 0
      · rw [engine_runProcess_ok st canvas fs intensity canvas
          (by simp only [WatermarkEngine.process]; rw [if_neg hready, if_pos hroi])]
      · push_neg at hroi
        obtain ⟨hrx, hry⟩ := hroi
        rw [engine_runProcess_data_main st canvas fs intensity hready
          (by push_neg; exact ⟨hrx, hry⟩)]
        rw [putBackROI_apply canvas.data _ canvas.width canvas.height _ _ _
          x y c hx hy hc]
        rcases hout with hc3 | houtroi
        · subst hc3
          by_cases hin : (WatermarkEngine.roiX
                (WatermarkEngine.selectConfig fs canvas.width canvas.height)
                canvas.width).toNat ≤ x ∧
              x < (WatermarkEngine.roiX
                (WatermarkEngine.selectConfig fs canvas.width canvas.height)
                canvas.width).toNat +
                (WatermarkEngine.selectConfig fs canvas.width canvas.height).logo_size ∧
              (WatermarkEngine.roiY
                (WatermarkEngine.selectConfig fs canvas.width canvas.height)
                canvas.height).toNat ≤ y ∧
              y < (WatermarkEngine.roiY
                (WatermarkEngine.selectConfig fs canvas.width canvas.height)
                canvas.height).toNat +
                (WatermarkEngine.selectConfig fs canvas.width canvas.height).logo_size
          · rw [if_pos hin]
            rw [engineLoop_frame _ _ _ _ _ _ (fun i hi c2 hc2 => by omega)]
            rw [extractROI_apply canvas.data canvas.width _ _ _
              (y - (WatermarkEngine.roiY
                (WatermarkEngine.selectConfig fs canvas.width canvas.height)
                canvas.height).toNat)
              (x - (WatermarkEngine.roiX
                (WatermarkEngine.selectConfig fs canvas.width canvas.height)
                canvas.width).toNat)
              3 (by omega) (by omega)]
            have h1 : (WatermarkEngine.roiY
                (WatermarkEngine.selectConfig fs canvas.width canvas.height)
                canvas.height).toNat +
                (y - (WatermarkEngine.roiY
                  (WatermarkEngine.selectConfig fs canvas.width canvas.height)
                  canvas.height).toNat) = y := by omega
            have h2 : (WatermarkEngine.roiX
                (WatermarkEngine.selectConfig fs canvas.width canvas.height)
                canvas.width).toNat +
                (x - (WatermarkEngine.roiX
                  (WatermarkEngine.selectConfig fs canvas.width canvas.height)
                  canvas.width).toNat) = x := by omega
            rw [h1, h2]
          · rw [if_neg hin]
        · rw [if_neg (by omega)]

/-- Witness for claim C8: on a concrete 80×80 image, the alpha channel of
the ROI pixel `(0,0)` survives the processor call, and the R channel of
pixel `(50,50)` (outside the 48×48 ROI) survives the engine call. -/
theorem claim_C8_witness :
    (WatermarkProcessor.process (some halfCornerMap48) (some zeroMap48) img200
        ForceMode.auto 255).data ((0 * img200.width + 0) * 4 + 3) =
      img200.data ((0 * img200.width + 0) * 4 + 3)
  ∧ (WatermarkEngine.runProcess
      { ready := true, small := zeroMap48, large := zeroMap48, logoValue := 255 }
      img200 none 1).data ((50 * img200.width + 50) * 4 + 0) =
      img200.data ((50 * img200.width + 50) * 4 + 0) :=
  ⟨(claim_C8_mutation_confined_to_roi.1 (some halfCornerMap48) (some zeroMap48)
      img200 ForceMode.auto 255).2.2.1 0 0 3 (by decide) (by decide) (by decide)
      (Or.inl rfl),
    (claim_C8_mutation_confined_to_roi.2
      { ready := true, small := zeroMap48, large := zeroMap48, logoValue := 255 }
      img200 none 1).2.2 50 50 0 (by decide) (by decide) (by decide)
      (Or.inr (by decide))⟩

/-- Claim C6: in the engine, an ROI pixel whose alpha-map entry scaled by
`intensity` is strictly below the 0.002 threshold has all four channels left
exactly unchanged by the restore call. -/
theorem claim_C6_threshold_skip
    (st : WatermarkEngineState) (canvas : ImageData) (fs : Option WatermarkSize)
    (intensity : ℚ) (cfg : WMConfig) (row col : ℕ)
    (hcfg : cfg = WatermarkEngine.selectConfig fs canvas.width canvas.height)
    (hready : st.ready = true)
    (hmapw : (WatermarkEngine.selectMap st cfg).width = cfg.logo_size)
    (hmaph : (WatermarkEngine.selectMap st cfg).height = cfg.logo_size)
    (hrow : row < cfg.logo_size) (hcol : col < cfg.logo_size)
    (hrx : 0 ≤ WatermarkEngine.roiX cfg canvas.width)
    (hry : 0 ≤ WatermarkEngine.roiY cfg canvas.height)
    (halpha : (WatermarkEngine.selectMap st cfg).data (row * cfg.logo_size + col) *
        intensity < ALPHA_THRESHOLD) :
    ∀ c : ℕ, c < 4 →
      (WatermarkEngine.runProcess st canvas fs intensity).data
          ((((WatermarkEngine.roiY cfg canvas.height).toNat + row) * canvas.width +
            ((WatermarkEngine.roiX cfg canvas.width).toNat + col)) * 4 + c) =
        canvas.data
          ((((WatermarkEngine.roiY cfg canvas.height).toNat + row) * canvas.width +
            ((WatermarkEngine.roiX cfg canvas.width).toNat + col)) * 4 + c) := by
  subst hcfg
  intro c hc
  have hready2 : ¬ st.ready = false := by
    rw [hready]; exact fun h => Bool.noConfusion h
  have hroi : ¬(WatermarkEngine.roiX
      (WatermarkEngine.selectConfig fs canvas.width canvas.height)
      canvas.width < 0 ∨
    WatermarkEngine.roiY
      (WatermarkEngine.selectConfig fs canvas.width canvas.height)
      canvas.height < 0) := by
    push_neg
    exact ⟨hrx, hry⟩
  have hxb : WatermarkEngine.roiX
      (WatermarkEngine.selectConfig fs canvas.width canvas.height) canvas.width +
      ((WatermarkEngine.selectConfig fs canvas.width canvas.height).logo_size : ℤ) ≤
      (canvas.width : ℤ) := by
    simp only [WatermarkEngine.roiX]; omega
  have hyb : WatermarkEngine.roiY
      (WatermarkEngine.selectConfig fs canvas.width canvas.height) canvas.height +
      ((WatermarkEngine.selectConfig fs canvas.width canvas.height).logo_size : ℤ) ≤
      (canvas.height : ℤ) := by
    simp only [WatermarkEngine.roiY]; omega
  have hx : (WatermarkEngine.roiX
      (WatermarkEngine.selectConfig fs canvas.width canvas.height)
      canvas.width).toNat + col < canvas.width := by omega
  have hy : (WatermarkEngine.roiY
      (WatermarkEngine.selectConfig fs canvas.width canvas.height)
      canvas.height).toNat + row < canvas.height := by omega
  rw [engine_runProcess_data_main st canvas fs intensity hready2 hroi]
  rw [putBackROI_apply canvas.data _ canvas.width canvas.height _ _ _
    ((WatermarkEngine.roiX
      (WatermarkEngine.selectConfig fs canvas.width canvas.height)
      canvas.width).toNat + col)
    ((WatermarkEngine.roiY
      (WatermarkEngine.selectConfig fs canvas.width canvas.height)
      canvas.height).toNat + row)
    c hx hy hc]
  rw [if_pos ⟨by omega, by omega, by omega, by omega⟩]
  have hq1 : ((WatermarkEngine.roiY
      (WatermarkEngine.selectConfig fs canvas.width canvas.height)
      canvas.height).toNat + row) -
      (WatermarkEngine.roiY
        (WatermarkEngine.selectConfig fs canvas.width canvas.height)
        canvas.height).toNat = row := by omega
  have hq2 : ((WatermarkEngine.roiX
      (WatermarkEngine.selectConfig fs canvas.width canvas.height)
      canvas.width).toNat + col) -
      (WatermarkEngine.roiX
        (WatermarkEngine.selectConfig fs canvas.width canvas.height)
        canvas.width).toNat = col := by omega
  rw [hq1, hq2]
  have hlen : (WatermarkEngine.selectMap st
      (WatermarkEngine.selectConfig fs canvas.width canvas.height)).width *
      (WatermarkEngine.selectMap st
        (WatermarkEngine.selectConfig fs canvas.width canvas.height)).height =
      (WatermarkEngine.selectConfig fs canvas.width canvas.height).logo_size *
      (WatermarkEngine.selectConfig fs canvas.width canvas.height).logo_size := by
    rw [hmapw, hmaph]
  rw [hlen]
  by_cases hc3 : c = 3
  · subst hc3
    rw [engineLoop_frame _ _ _ _ _ _ (fun i hi c2 hc2 => by omega)]
    rw [extractROI_apply canvas.data canvas.width _ _ _ row col 3 hcol (by omega)]
  · have hc2 : c < 3 := by omega
    have hilt : row * (WatermarkEngine.selectConfig fs canvas.width
        canvas.height).logo_size + col <
        (WatermarkEngine.selectConfig fs canvas.width canvas.height).logo_size *
        (WatermarkEngine.selectConfig fs canvas.width canvas.height).logo_size := by
      calc row * (WatermarkEngine.selectConfig fs canvas.width
            canvas.height).logo_size + col <
          row * (WatermarkEngine.selectConfig fs canvas.width
            canvas.height).logo_size +
          (WatermarkEngine.selectConfig fs canvas.width canvas.height).logo_size := by
            omega
        _ = (row + 1) * (WatermarkEngine.selectConfig fs canvas.width
            canvas.height).logo_size := by ring
        _ ≤ (WatermarkEngine.selectConfig fs canvas.width canvas.height).logo_size *
            (WatermarkEngine.selectConfig fs canvas.width canvas.height).logo_size :=
          Nat.mul_le_mul_right _ hrow
    rw [engineLoop_apply _ _ _ _ _
      (row * (WatermarkEngine.selectConfig fs canvas.width
        canvas.height).logo_size + col) c hilt hc2]
    have hskip : WatermarkEngine.effectiveAlpha
        ((WatermarkEngine.selectMap st
          (WatermarkEngine.selectConfig fs canvas.width canvas.height)).data
          (row * (WatermarkEngine.selectConfig fs canvas.width
            canvas.height).logo_size + col)) intensity < ALPHA_THRESHOLD := by
      simp only [WatermarkEngine.effectiveAlpha]
      exact lt_of_le_of_lt (min_le_left _ _) halpha
    rw [if_pos hskip]
    rw [extractROI_apply canvas.data canvas.width _ _ _ row col c hcol (by omega)]

/-- Witness for claim C6: ready engine, 80×80 image, zero alpha map — the
ROI's top-left pixel is untouched on every channel. -/
theorem claim_C6_witness :
    zeroMap48.data 0 * 1 < ALPHA_THRESHOLD
  ∧ (WatermarkEngine.runProcess
      { ready := true, small := zeroMap48, large := zeroMap48, logoValue := 255 }
      img200 none 1).data
        ((((WatermarkEngine.roiY
            (WatermarkEngine.selectConfig none img200.width img200.height)
            img200.height).toNat + 0) * img200.width +
          ((WatermarkEngine.roiX
            (WatermarkEngine.selectConfig none img200.width img200.height)
            img200.width).toNat + 0)) * 4 + 0) =
      img200.data
        ((((WatermarkEngine.roiY
            (WatermarkEngine.selectConfig none img200.width img200.height)
            img200.height).toNat + 0) * img200.width +
          ((WatermarkEngine.roiX
            (WatermarkEngine.selectConfig none img200.width img200.height)
            img200.width).toNat + 0)) * 4 + 0) :=
  ⟨by norm_num [zeroMap48, ALPHA_THRESHOLD],
    claim_C6_threshold_skip
      { ready := true, small := zeroMap48, large := zeroMap48, logoValue := 255 }
      img200 none 1
      (WatermarkEngine.selectConfig none img200.width img200.height) 0 0
      rfl rfl rfl rfl (by decide) (by decide) (by decide) (by decide)
      (by norm_num [zeroMap48, ALPHA_THRESHOLD, WatermarkEngine.selectMap])
      0 (by decide)⟩

/-- Data of a `WatermarkProcessor.process` call with the selected map
present. -/
theorem processor_process_data_eq (am48 am96 : Option AlphaMap)
    (img : ImageData) (fm : ForceMode) (lv : ℚ) (am : AlphaMap)
    (ham : WatermarkProcessor.selectMap am48 am96
      (WatermarkProcessor.getWatermarkConfig img.width img.height fm) = some am) :
    (WatermarkProcessor.process am48 am96 img fm lv).data =
      WatermarkProcessor.processorLoop am.data
        (WatermarkProcessor.getWatermarkConfig img.width img.height fm).size
        (WatermarkProcessor.getWatermarkConfig img.width img.height fm).x
        (WatermarkProcessor.getWatermarkConfig img.width img.height fm).y
        img.width img.height lv img.data := by
  rw [processor_process_eq_some am48 am96 img fm lv am ham]

/-- Value of the synthetic composite at an RGB channel of an in-bounds ROI
pixel: the spec's blend of the original value with the logo value 255. -/
theorem compositeWatermark_apply (am : AlphaMap) (config : PConfig)
    (img : ImageData) (x y c col row : ℕ)
    (hx : (x : ℤ) = config.x + col) (hy : (y : ℤ) = config.y + row)
    (hcol : col < config.size) (hrow : row < config.size)
    (hxw : x < img.width) (hyh : y < img.height) (hc : c < 3) :
    (compositeWatermark am config img).data ((y * img.width + x) * 4 + c) =
      img.data ((y * img.width + x) * 4 + c) *
        (1 - am.data (row * config.size + col)) +
        am.data (row * config.size + col) * 255 := by
  simp only [compositeWatermark]
  have hw : 0 < img.width := by omega
  have hp : ((y * img.width + x) * 4 + c) / 4 = y * img.width + x := by omega
  have hm : ((y * img.width + x) * 4 + c) % 4 = c := by omega
  rw [hp, hm]
  have h1 : (y * img.width + x) % img.width = x := by
    rw [Nat.mul_comm y img.width, Nat.mul_add_mod]; exact Nat.mod_eq_of_lt hxw
  have h2 : (y * img.width + x) / img.width = y := by
    rw [Nat.mul_comm y img.width, Nat.mul_add_div hw, Nat.div_eq_of_lt hxw,
      Nat.add_zero]
  rw [h1, h2]
  rw [if_pos ⟨hc, hyh, by omega, by omega, by omega, by omega⟩]
  have hα1 : ((y : ℤ) - config.y).toNat = row := by omega
  have hα2 : ((x : ℤ) - config.x).toNat = col := by omega
  rw [hα1, hα2]

/-- Claim C1 (round-trip): compositing a synthetic watermark
`watermarked = original*(1 - alpha) + alpha*255` over the ROI of a byte
image and then restoring it (logo value 255, matching intensity 1.0) returns
every ROI channel whose alpha-map value is below 0.99 to its original value
within a tolerance of ±1. -/
theorem claim_C1_round_trip
    (am48 am96 : Option AlphaMap) (img : ImageData) (fm : ForceMode)
    (am : AlphaMap) (cfg : PConfig) (x y c col row k : ℕ)
    (hcfg : cfg = WatermarkProcessor.getWatermarkConfig img.width img.height fm)
    (ham : WatermarkProcessor.selectMap am48 am96 cfg = some am)
    (hx : (x : ℤ) = cfg.x + col) (hy : (y : ℤ) = cfg.y + row)
    (hcol : col < cfg.size) (hrow : row < cfg.size)
    (hxw : x < img.width) (hyh : y < img.height) (hc : c < 3)
    (hbyte : img.data ((y * img.width + x) * 4 + c) = (k : ℚ)) (hk : k ≤ 255)
    (hα0 : 0 ≤ am.data (row * cfg.size + col))
    (hα1 : am.data (row * cfg.size + col) < MAX_ALPHA) :
    |(WatermarkProcessor.process am48 am96 (compositeWatermark am cfg img) fm
        255).data ((y * img.width + x) * 4 + c) -
      img.data ((y * img.width + x) * 4 + c)| ≤ 1 := by
  have hWw : (compositeWatermark am cfg img).width = img.width := rfl
  have hWh : (compositeWatermark am cfg img).height = img.height := rfl
  have hamW : WatermarkProcessor.selectMap am48 am96
      (WatermarkProcessor.getWatermarkConfig (compositeWatermark am cfg img).width
        (compositeWatermark am cfg img).height fm) = some am := by
    rw [hWw, hWh, ← hcfg]; exact ham
  rw [processor_process_data_eq am48 am96 (compositeWatermark am cfg img) fm 255
    am hamW]
  rw [hWw, hWh, ← hcfg]
  rw [processorLoop_apply am.data cfg.size cfg.x cfg.y img.width img.height 255
    (compositeWatermark am cfg img).data x y c col row hx hy hcol hrow hxw hyh hc]
  rw [compositeWatermark_apply am cfg img x y c col row hx hy hcol hrow hxw hyh hc]
  have hk255 : (k : ℚ) ≤ 255 := by exact_mod_cast hk
  have hk0 : (0 : ℚ) ≤ (k : ℚ) := Nat.cast_nonneg k
  by_cases hthr : am.data (row * cfg.size + col) < ALPHA_THRESHOLD
  · rw [if_pos hthr]
    rw [hbyte]
    have hE : (k : ℚ) * (1 - am.data (row * cfg.size + col)) +
        am.data (row * cfg.size + col) * 255 - (k : ℚ) =
        am.data (row * cfg.size + col) * (255 - (k : ℚ)) := by ring
    rw [hE]
    rw [abs_of_nonneg (mul_nonneg hα0 (by linarith))]
    have hthr2 : am.data (row * cfg.size + col) < 2 / 1000 := by
      simpa [ALPHA_THRESHOLD] using hthr
    have hmul : am.data (row * cfg.size + col) * (255 - (k : ℚ)) ≤
        (2 / 1000) * (255 - (k : ℚ)) :=
      mul_le_mul_of_nonneg_right (le_of_lt hthr2) (by linarith)
    linarith
  · rw [if_neg hthr]
    have hmin : min (am.data (row * cfg.size + col)) MAX_ALPHA =
        am.data (row * cfg.size + col) := min_eq_left (le_of_lt hα1)
    rw [hmin]
    simp only [restoreChannelQ]
    have h1α : (0 : ℚ) < 1 - am.data (row * cfg.size + col) := by
      have : am.data (row * cfg.size + col) < 99 / 100 := by
        simpa [MAX_ALPHA] using hα1
      linarith
    have hdiv : (img.data ((y * img.width + x) * 4 + c) *
          (1 - am.data (row * cfg.size + col)) +
          am.data (row * cfg.size + col) * 255 -
          am.data (row * cfg.size + col) * 255) /
        (1 - am.data (row * cfg.size + col)) =
        img.data ((y * img.width + x) * 4 + c) := by
      rw [show img.data ((y * img.width + x) * 4 + c) *
          (1 - am.data (row * cfg.size + col)) +
          am.data (row * cfg.size + col) * 255 -
          am.data (row * cfg.size + col) * 255 =
          img.data ((y * img.width + x) * 4 + c) *
          (1 - am.data (row * cfg.size + col)) by ring]
      exact mul_div_cancel_right₀ _ (ne_of_gt h1α)
    rw [hdiv, hbyte]
    have hjs : jsRound ((k : ℚ)) = (k : ℤ) := by
      unfold jsRound
      rw [show ((k : ℚ)) + 1 / 2 = ((k : ℤ) : ℚ) + 1 / 2 by push_cast; ring]
      rw [Int.floor_int_add]
      norm_num
    rw [hjs]
    have hmin2 : min (255 : ℤ) (k : ℤ) = (k : ℤ) :=
      min_eq_right (by exact_mod_cast hk)
    have hmax : max (0 : ℤ) (k : ℤ) = (k : ℤ) :=
      max_eq_right (Int.natCast_nonneg k)
    rw [hmin2, hmax]
    rw [show (((k : ℤ) : ℚ)) = ((k : ℚ)) by push_cast; ring]
    simp

/-- Witness for claim C1: 80×80 byte image with value 200, alpha-map value
1/2 at the ROI's top-left pixel; the composite there is 227.5 and the
restored value is within 1 of 200. -/
theorem claim_C1_witness :
    halfCornerMap48.data 0 < MAX_ALPHA
  ∧ |(WatermarkProcessor.process (some halfCornerMap48) (some zeroMap48)
      (compositeWatermark halfCornerMap48
        (WatermarkProcessor.getWatermarkConfig img200.width img200.height
          ForceMode.auto) img200) ForceMode.auto 255).data
        ((0 * img200.width + 0) * 4 + 0) -
      img200.data ((0 * img200.width + 0) * 4 + 0)| ≤ 1 :=
  ⟨by norm_num [halfCornerMap48, MAX_ALPHA],
    claim_C1_round_trip (some halfCornerMap48) (some zeroMap48) img200
      ForceMode.auto halfCornerMap48
      (WatermarkProcessor.getWatermarkConfig img200.width img200.height
        ForceMode.auto) 0 0 0 0 0 200
      rfl rfl (by decide) (by decide) (by decide) (by decide) (by decide)
      (by decide) (by decide) (by norm_num [img200]) (by norm_num)
      (by norm_num [halfCornerMap48, WatermarkProcessor.getWatermarkConfig])
      (by norm_num [halfCornerMap48, WatermarkProcessor.getWatermarkConfig,
        MAX_ALPHA])⟩
